import Mathlib

/-!
Shallow embedding of the prompt-storage core: the pydantic models of
src/core/models.py, the MySQL-backed repository of
src/data/prompt_repository.py (each SQL statement translated to an
operation on list-based tables), and the transactional facade of
src/service/prompt_service.py. Repository writes return either a new
store or an error paired with the store as it stood when the error was
raised; the facade rolls back to the pre-call store on any error.
-/

set_option autoImplicit false

namespace PromptCore

/-- Identity model (core/models.py, class User). -/
structure User where
  username : String
  password : String
  class_key : String
deriving DecidableEq, Repr

/-- Create input (core/models.py, class PromptCreate). The pydantic
defaults are author = None and tags = []. -/
structure PromptCreate where
  content : String
  display_name : String
  author : Option String := none
  tags : Option (List String) := some []
deriving DecidableEq, Repr

/-- Partial-update input (core/models.py, class PromptUpdate). The pydantic
defaults are content = None, display_name = None and tags = [] — note that
the default for tags is the empty list, not None. -/
structure PromptUpdate where
  content : Option String := none
  display_name : Option String := none
  tags : Option (List String) := some []
deriving DecidableEq, Repr

/-- A PromptUpdate with every field left at its pydantic default, as
produced from an input that supplies no field at all. -/
def PromptUpdate.defaults : PromptUpdate := {}

/-- A row of the prompts table. Timestamps are storage-assigned and modelled
as naturals. -/
structure PromptRow where
  id : Nat
  guid : String
  content : String
  display_name : String
  author : Option String
  created_at : Nat
  updated_at : Nat
deriving DecidableEq, Repr

/-- A row of the global tags vocabulary (unique tag strings). -/
structure TagRow where
  id : Nat
  tag : String
deriving DecidableEq, Repr

/-- A row of the prompt_tags link table. -/
structure PromptTagRow where
  prompt_id : Nat
  tag_id : Nat
deriving DecidableEq, Repr

/-- The relational store: the three tables, the auto-increment counters and
the storage clock used for assigned timestamps. -/
structure DB where
  prompts : List PromptRow
  tags : List TagRow
  prompt_tags : List PromptTagRow
  next_prompt_id : Nat
  next_tag_id : Nat
  now : Nat
deriving DecidableEq, Repr

/-- Errors that a repository call can surface.
Modelled from the spec: core/exceptions.py is not under src/; the spec's
error kinds give DataValidationError, UnauthorizedError, RecordNotFoundError
and ConstraintViolationError as the recognized domain kinds (subclasses of
PromptException). A Python TypeError (subscripting a missing fetchone
result), a MySQL duplicate-key failure (the link table has a uniqueness
constraint on the (prompt, tag) pair per the spec's schema) and a MySQL
error for a malformed statement are unrecognized low-level failures. -/
inductive RepoError where
  | dataValidation
  | unauthorized
  | recordNotFound
  | constraintViolation
  | pyTypeError
  | duplicateKey
  | malformedQuery
deriving DecidableEq, Repr

/-- Error kinds visible at the facade boundary. -/
inductive ServiceError where
  | validation
  | unauthorized
  | recordNotFound
  | constraintViolation
  | unexpected
deriving DecidableEq, Repr

/-- Modelled from the spec: the facade re-raises recognized domain errors
(PromptException subclasses) unchanged and wraps anything else as the
generic unexpected kind (prompt_service.py, the two except arms). -/
def toServiceError : RepoError → ServiceError
  | .dataValidation => .validation
  | .unauthorized => .unauthorized
  | .recordNotFound => .recordNotFound
  | .constraintViolation => .constraintViolation
  | .pyTypeError => .unexpected
  | .duplicateKey => .unexpected
  | .malformedQuery => .unexpected

/-- The ownership token compared against the author column:
user.username if user else None. -/
def ownerName (user : Option User) : Option String :=
  user.map User.username

/-- Python str.split with a one-character separator, accumulator form:
the empty string splits to [""], and every split result is nonempty. -/
def splitCommaAux : List Char → List Char → List String
  | [], acc => [String.mk acc]
  | c :: rest, acc =>
    if c = ',' then String.mk acc :: splitCommaAux rest []
    else splitCommaAux rest (acc ++ [c])

/-- Python tags.split(",") (used by make_result_dict and by the service's
comma-separated tags parameter). -/
def pySplitComma (s : String) : List String :=
  splitCommaAux s.data []

/-- The comma join performed by GROUP_CONCAT(tags.tag). -/
def joinComma : List String → String
  | [] => ""
  | [t] => t
  | t :: rest => t ++ "," ++ joinComma rest

/-- MySQLPromptRepository._check_prompt_ownership: SELECT author FROM prompts
WHERE guid = %s, then fetchone()["author"]. Subscripting the missing row of
an empty result raises a Python TypeError; otherwise the stored author must
equal the caller's ownership token or UnauthorizedError is raised. -/
def check_prompt_ownership (db : DB) (guid : String) (user : Option User) :
    Option RepoError :=
  match db.prompts.find? (fun r => r.guid == guid) with
  | none => some .pyTypeError
  | some r => if r.author = ownerName user then none else some .unauthorized

/-- MySQLPromptRepository.remove_all_tags_from_prompt: DELETE prompt_tags
joined to prompts on prompt_id = prompts.id, WHERE prompts.guid = %s AND the
ownership clause (author = %s when a user is given, author IS NULL
otherwise). -/
def remove_all_tags_from_prompt (db : DB) (guid : String) (user : Option User) : DB :=
  { db with
    prompt_tags := db.prompt_tags.filter fun l =>
      ! db.prompts.any fun p =>
        p.id == l.prompt_id && p.guid == guid && p.author == ownerName user }

/-- Sequential row insertion into the link table. The spec's schema puts a
uniqueness constraint on the (prompt, tag) pair, so inserting an already
present pair fails with a duplicate-key error and the statement inserts
nothing. -/
def insertLinks (table : List PromptTagRow) :
    List PromptTagRow → Except RepoError (List PromptTagRow)
  | [] => .ok table
  | l :: rest =>
    if l ∈ table then .error .duplicateKey
    else insertLinks (table ++ [l]) rest

/-- MySQLPromptRepository.add_tag_to_prompt: upsert the tag string into the
global vocabulary (INSERT ... ON DUPLICATE KEY UPDATE, a no-op when the
string is already present), then INSERT INTO prompt_tags the pairs selected
by SELECT prompts.id, tags.id FROM prompts, tags WHERE prompts.guid = %s AND
tags.tag = %s AND the ownership clause. -/
def add_tag_to_prompt (db : DB) (guid : String) (tag : String)
    (user : Option User) : Except (RepoError × DB) DB :=
  let db1 :=
    if db.tags.any (fun t => t.tag == tag) then db
    else { db with
           tags := db.tags ++ [⟨db.next_tag_id, tag⟩],
           next_tag_id := db.next_tag_id + 1 }
  let selected :=
    (db1.prompts.filter fun p =>
        p.guid == guid && p.author == ownerName user).flatMap fun p =>
      (db1.tags.filter fun t => t.tag == tag).map fun t =>
        PromptTagRow.mk p.id t.id
  match insertLinks db1.prompt_tags selected with
  | .ok links => .ok { db1 with prompt_tags := links }
  | .error e => .error (e, db1)

/-- The for-loop of _update_tags: add each tag in order, stopping at the
first failing statement. -/
def addTagsSeq (guid : String) (user : Option User) :
    DB → List String → Except (RepoError × DB) DB
  | db, [] => .ok db
  | db, t :: rest =>
    match add_tag_to_prompt db guid t user with
    | .ok db2 => addTagsSeq guid user db2 rest
    | .error e => .error e

/-- MySQLPromptRepository._update_tags: ownership check, then remove all
existing links, then add each new tag. Iterating a None tags value raises a
Python TypeError after the removal has already run. -/
def update_tags (db : DB) (guid : String) (tags : Option (List String))
    (user : Option User) : Except (RepoError × DB) DB :=
  match check_prompt_ownership db guid user with
  | some e => .error (e, db)
  | none =>
    let db1 := remove_all_tags_from_prompt db guid user
    match tags with
    | none => .error (.pyTypeError, db1)
    | some ts => addTagsSeq guid user db1 ts

/-- MySQLPromptRepository.create_prompt: INSERT the row (guid generated by
core.make_guid, passed in here as newGuid; id and timestamps
storage-assigned), then _update_tags with the input's tags. -/
def create_prompt (db : DB) (newGuid : String) (p : PromptCreate)
    (author : Option User) : Except (RepoError × DB) (DB × String) :=
  let row : PromptRow :=
    { id := db.next_prompt_id, guid := newGuid, content := p.content,
      display_name := p.display_name, author := ownerName author,
      created_at := db.now, updated_at := db.now }
  let db1 := { db with
               prompts := db.prompts ++ [row],
               next_prompt_id := db.next_prompt_id + 1 }
  match update_tags db1 newGuid p.tags author with
  | .ok db2 => .ok (db2, newGuid)
  | .error e => .error e

/-- The (column, value) assignment pairs built by update_prompt's loop over
prompt.dict(exclude_unset=True): fields in declaration order, guid and tags
skipped, None values skipped. -/
def scalarAssignments (p : PromptUpdate) : List (String × String) :=
  (match p.content with
   | some c => [("content", c)]
   | none => []) ++
  (match p.display_name with
   | some d => [("display_name", d)]
   | none => [])

/-- Application of one SET assignment to a row. -/
def applyAssignment (r : PromptRow) : String × String → PromptRow
  | ("content", v) => { r with content := v }
  | ("display_name", v) => { r with display_name := v }
  | _ => r

/-- The dynamically built UPDATE statement: SET the collected pairs on every
row matching WHERE guid = %s — the only condition in its WHERE clause — and
a no-op when no pair was collected. -/
def applyScalarUpdate (db : DB) (guid : String) (p : PromptUpdate) : DB :=
  if scalarAssignments p = [] then db
  else
    { db with
      prompts := db.prompts.map fun r =>
        if r.guid = guid then (scalarAssignments p).foldl applyAssignment r
        else r }

/-- MySQLPromptRepository.update_prompt: collect the scalar assignments,
raise DataValidationError when none was collected and tags is None, execute
the UPDATE (WHERE guid = %s only) when some was collected, then replace the
tag set via _update_tags whenever tags is not None. -/
def update_prompt (db : DB) (guid : String) (p : PromptUpdate)
    (user : Option User) : Except (RepoError × DB) DB :=
  if scalarAssignments p = [] ∧ p.tags = none then
    .error (.dataValidation, db)
  else
    let db1 := applyScalarUpdate db guid p
    match p.tags with
    | none => .ok db1
    | some _ => update_tags db1 guid p.tags user

/-- MySQLPromptRepository.delete_prompt: ownership check, DELETE FROM
prompts WHERE guid = %s, then remove_all_tags_from_prompt — in that
order. -/
def delete_prompt (db : DB) (guid : String) (user : Option User) :
    Except (RepoError × DB) DB :=
  match check_prompt_ownership db guid user with
  | some e => .error (e, db)
  | none =>
    let db1 := { db with prompts := db.prompts.filter fun r => !(r.guid == guid) }
    .ok (remove_all_tags_from_prompt db1 guid user)

/-- The tag strings reached from the links of the prompt with internal id
pid, in link-table order; links whose tag id resolves to no vocabulary row
contribute nothing (their joined tag is NULL). -/
def tagStringsOf (db : DB) (pid : Nat) : List String :=
  (db.prompt_tags.filter fun l => l.prompt_id == pid).filterMap
    (fun l => (db.tags.find? fun t => t.id == l.tag_id).map TagRow.tag)

/-- GROUP_CONCAT(tags.tag) for one prompt through the two LEFT JOINs: the
tag strings of the prompt's links in table order, NULL (none) when no link
resolves to a tag row. -/
def groupConcatTags (db : DB) (p : PromptRow) : Option String :=
  match tagStringsOf db p.id with
  | [] => none
  | ts => some (joinComma ts)

/-- The Prompt output model (core/models.py, class Prompt). -/
structure Prompt where
  id : Nat
  guid : String
  content : String
  display_name : String
  author : Option String
  tags : List String
  created_at : Nat
  updated_at : Nat
deriving DecidableEq, Repr

/-- MySQLPromptRepository.make_result_dict: column passthrough plus
result["tags"].split(",") if result["tags"] else [] — both a NULL aggregate
and an empty-string aggregate give the empty tag list. -/
def make_result_dict (r : PromptRow) (agg : Option String) : Prompt :=
  { id := r.id, guid := r.guid, content := r.content,
    display_name := r.display_name, author := r.author,
    tags :=
      match agg with
      | none => []
      | some s => if s = "" then [] else pySplitComma s,
    created_at := r.created_at, updated_at := r.updated_at }

/-- MySQLPromptRepository.get_prompt: the aggregated SELECT with WHERE
prompts.guid = %s AND the ownership clause, GROUP BY prompts.id, fetchone;
an empty result raises RecordNotFoundError. -/
def get_prompt (db : DB) (guid : String) (user : Option User) :
    Except RepoError Prompt :=
  match db.prompts.find? (fun r => r.guid == guid && r.author == ownerName user) with
  | none => .error .recordNotFound
  | some r => .ok (make_result_dict r (groupConcatTags db r))

/-- MySQLPromptRepository.get_prompt_by_name: as get_prompt but keyed by
display_name. -/
def get_prompt_by_name (db : DB) (name : String) (user : Option User) :
    Except RepoError Prompt :=
  match db.prompts.find? (fun r => r.display_name == name && r.author == ownerName user) with
  | none => .error .recordNotFound
  | some r => .ok (make_result_dict r (groupConcatTags db r))

/-- MySQLPromptRepository.list_prompts: every row matching the ownership
clause, each with its aggregated tag set, in storage order. -/
def list_prompts (db : DB) (user : Option User) : List Prompt :=
  (db.prompts.filter fun r => r.author == ownerName user).map fun r =>
    make_result_dict r (groupConcatTags db r)

/-- The tag strings of one prompt surviving the WHERE tags.tag IN (...)
clause, in link-table order. -/
def matchingTagStrings (db : DB) (p : PromptRow) (tags_list : List String) :
    List String :=
  (db.prompt_tags.filter fun l => l.prompt_id == p.id).filterMap fun l =>
    match db.tags.find? fun t => t.id == l.tag_id with
    | some t => if t.tag ∈ tags_list then some t.tag else none
    | none => none

/-- MySQLPromptRepository.list_prompts_by_tags: the joined SELECT with WHERE
tags.tag IN (one placeholder per element) AND the ownership clause, GROUP BY
prompts.id. An empty tag list renders the IN clause with no placeholder,
which the engine rejects as a malformed statement. -/
def list_prompts_by_tags (db : DB) (tags_list : List String)
    (user : Option User) : Except RepoError (List Prompt) :=
  if tags_list = [] then .error .malformedQuery
  else
    .ok <|
      (db.prompts.filter fun r => r.author == ownerName user).filterMap fun r =>
        match matchingTagStrings db r tags_list with
        | [] => none
        | ts => some (make_result_dict r (some (joinComma ts)))

/-- The facade's write pattern (prompt_service.py): begin, run the
repository call, commit on success; on an error roll back to the pre-call
store, re-raise a recognized domain error unchanged and wrap anything else
as the unexpected kind. -/
def runWrite (db : DB) (op : DB → Except (RepoError × DB) DB) :
    DB × Option ServiceError :=
  match op db with
  | .ok db2 => (db2, none)
  | .error (e, _) => (db, some (toServiceError e))

/-- PromptService.update_prompt. -/
def service_update_prompt (db : DB) (guid : String) (p : PromptUpdate)
    (user : Option User) : DB × Option ServiceError :=
  runWrite db fun d => update_prompt d guid p user

/-- PromptService.delete_prompt. -/
def service_delete_prompt (db : DB) (guid : String) (user : Option User) :
    DB × Option ServiceError :=
  runWrite db fun d => delete_prompt d guid user

/-- PromptService.add_tag_to_prompt. -/
def service_add_tag_to_prompt (db : DB) (guid : String) (tag : String)
    (user : Option User) : DB × Option ServiceError :=
  runWrite db fun d => add_tag_to_prompt d guid tag user

/-- PromptService.list_prompts_by_tags: split the comma-separated tags
string, raise DataValidationError when the split list is empty, otherwise
delegate to the repository; domain errors pass unchanged and anything else
is wrapped as the unexpected kind. -/
def service_list_prompts_by_tags (db : DB) (tags : String)
    (user : Option User) : Except ServiceError (List Prompt) :=
  if pySplitComma tags = [] then .error .validation
  else
    match list_prompts_by_tags db (pySplitComma tags) user with
    | .ok r => .ok r
    | .error e => .error (toServiceError e)

/-- Well-formedness of the modelled store: auto-increment counters are ahead
of every id in use (also of the ids referenced by link rows), and the tags
table satisfies the schema's uniqueness of ids and of tag strings. -/
def DBWF (db : DB) : Prop :=
  (∀ r ∈ db.prompts, r.id < db.next_prompt_id) ∧
  (∀ l ∈ db.prompt_tags, l.prompt_id < db.next_prompt_id) ∧
  (∀ tr ∈ db.tags, tr.id < db.next_tag_id) ∧
  (∀ l ∈ db.prompt_tags, l.tag_id < db.next_tag_id) ∧
  (db.tags.map TagRow.id).Nodup ∧
  (db.tags.map TagRow.tag).Nodup

/-- A concrete identity. -/
def alice : User := ⟨"alice", "pw", "k"⟩

/-- A store holding one public prompt tagged "t": prompts row 1 with guid
"g", tags row 1 with string "t", one link. -/
def exDB : DB :=
  { prompts := [⟨1, "g", "c", "old", none, 0, 0⟩],
    tags := [⟨1, "t"⟩],
    prompt_tags := [⟨1, 1⟩],
    next_prompt_id := 2, next_tag_id := 2, now := 0 }

/-- A store holding one prompt owned by "bob", untagged. -/
def exDBBob : DB :=
  { prompts := [⟨1, "g", "c", "old", some "bob", 0, 0⟩],
    tags := [], prompt_tags := [],
    next_prompt_id := 2, next_tag_id := 1, now := 0 }

/-- exDBBob after the scalar UPDATE of display_name has hit bob's row. -/
def exDBBob1 : DB :=
  { exDBBob with prompts := [⟨1, "g", "c", "new", some "bob", 0, 0⟩] }

/-- A store holding one public untagged prompt. -/
def exDB7 : DB :=
  { prompts := [⟨1, "g", "c", "d", none, 0, 0⟩],
    tags := [], prompt_tags := [],
    next_prompt_id := 2, next_tag_id := 1, now := 0 }

/-- exDB7 after one add_tag_to_prompt with tag "x". -/
def exDB7a : DB :=
  { exDB7 with tags := [⟨1, "x"⟩], prompt_tags := [⟨1, 1⟩], next_tag_id := 2 }

/-- The empty store. -/
def exDB0 : DB :=
  { prompts := [], tags := [], prompt_tags := [],
    next_prompt_id := 1, next_tag_id := 1, now := 0 }

/-- exDB after its row's display_name was set to "new" and the tag links
were wiped. -/
def exDBnew : DB :=
  { exDB with
    prompts := [⟨1, "g", "c", "new", none, 0, 0⟩],
    prompt_tags := [] }

/-- exDB with its tag links wiped and everything else untouched. -/
def exDBwiped : DB :=
  { exDB with prompt_tags := [] }

/-- exDB after DELETE FROM prompts removed its row: the link row is still
there. -/
def exDBdel : DB :=
  { exDB with prompts := [] }

/-- A create input whose single tag contains a comma. -/
def pComma : PromptCreate :=
  { content := "c", display_name := "d", tags := some ["a,b"] }

/-- The store produced by create_prompt exDB0 "g1" pComma none. -/
def exDB0c : DB :=
  { prompts := [⟨1, "g1", "c", "d", none, 0, 0⟩],
    tags := [⟨1, "a,b"⟩], prompt_tags := [⟨1, 1⟩],
    next_prompt_id := 2, next_tag_id := 2, now := 0 }

theorem splitCommaAux_ne_nil : ∀ (l acc : List Char), splitCommaAux l acc ≠ []
  | [], acc => by simp [splitCommaAux]
  | c :: rest, acc => by
    by_cases h : c = ','
    · simp [splitCommaAux, h]
    · simpa [splitCommaAux, h] using splitCommaAux_ne_nil rest (acc ++ [c])

theorem pySplitComma_ne_nil (s : String) : pySplitComma s ≠ [] :=
  splitCommaAux_ne_nil s.data []

theorem insertLinks_error : ∀ (ls table : List PromptTagRow) (e : RepoError),
    insertLinks table ls = .error e → e = .duplicateKey
  | [], table, e => by simp [insertLinks]
  | l :: rest, table, e => by
    by_cases h : l ∈ table
    · simp only [insertLinks, if_pos h]
      intro he
      exact (Except.error.injEq _ _).mp he |>.symm
    · simp only [insertLinks, if_neg h]
      exact insertLinks_error rest (table ++ [l]) e

theorem add_tag_to_prompt_error (db : DB) (g t : String) (user : Option User)
    (e : RepoError) (db2 : DB)
    (h : add_tag_to_prompt db g t user = .error (e, db2)) : e = .duplicateKey := by
  rw [add_tag_to_prompt] at h
  split at h
  · exact absurd h (by simp)
  · rename_i heq
    obtain ⟨h1, h2⟩ := Prod.mk.injEq .. ▸ (Except.error.injEq _ _).mp h
    exact insertLinks_error _ _ _ (h1 ▸ heq)

theorem addTagsSeq_error (g : String) (user : Option User) :
    ∀ (ts : List String) (db : DB) (e : RepoError) (db2 : DB),
    addTagsSeq g user db ts = .error (e, db2) → e = .duplicateKey
  | [], db, e, db2 => by simp [addTagsSeq]
  | t :: rest, db, e, db2 => by
    rw [addTagsSeq]
    split
    · exact addTagsSeq_error g user rest _ e db2
    · rename_i e' heq
      intro h
      have he' : e' = (e, db2) := (Except.error.injEq _ _).mp h
      exact add_tag_to_prompt_error db g t user e db2 (he' ▸ heq)

/-- C1: the spec says an update that explicitly supplies only display_name
leaves content and the tag set untouched. The code violates this: the
pydantic default for PromptUpdate.tags is [] (not None), update_prompt
treats any non-None tags as a full replace, so the update succeeds, sets
display_name, leaves content — and deletes every tag link of the prompt
(the tag set becomes empty instead of staying ["t"]). -/
theorem update_only_display_name_clears_tag_links :
    update_prompt exDB "g" { display_name := some "new" } none = .ok exDBnew ∧
    (get_prompt exDB "g" none).map Prompt.tags = .ok ["t"] ∧
    (get_prompt exDBnew "g" none).map Prompt.tags = .ok [] ∧
    exDBnew.prompts = [⟨1, "g", "c", "new", none, 0, 0⟩] ∧
    exDBnew.prompt_tags = [] :=
  ⟨rfl, rfl, rfl, rfl, rfl⟩

/-- C2: the spec says an update supplying no scalar field and no tags field
raises ValidationError and leaves storage unchanged. The code violates
this: a PromptUpdate with every field at its default has tags = some []
(the pydantic default), so the "No fields to update" DataValidationError is
not raised; the call succeeds and wipes the prompt's tag links instead. -/
theorem empty_update_input_no_validation_error :
    update_prompt exDB "g" PromptUpdate.defaults none = .ok exDBwiped ∧
    PromptUpdate.defaults.tags = some [] ∧
    exDB.prompt_tags = [⟨1, 1⟩] ∧
    exDBwiped.prompt_tags = [] :=
  ⟨rfl, rfl, rfl, rfl⟩

/-- C3 counterexample: the claim says a scalar-only update performs no
ownership check at all. On a prompt owned by "bob", an update by alice that
explicitly supplies only display_name (tags left at the pydantic default
[]) raises UnauthorizedError — an ownership check did run, because the
default [] is not None and triggers the tag-replace path. The error state
also shows the guid-only WHERE: bob's row already took the scalar write. -/
theorem scalar_only_update_hits_ownership_check :
    update_prompt exDBBob "g" { display_name := some "new" } (some alice) =
      .error (.unauthorized, exDBBob1) ∧
    exDBBob1.prompts = [⟨1, "g", "c", "new", some "bob", 0, 0⟩] :=
  ⟨rfl, rfl⟩

/-- C5: delete_prompt on a row whose stored author differs from the
caller's ownership token (including the NULL-vs-identity cases) raises
UnauthorizedError with the store exactly as it was — the check runs before
the DELETE and before any link removal — and the facade re-raises it
unchanged over the rolled-back store. -/
theorem delete_wrong_owner_unauthorized_keeps_row
    (db : DB) (guid : String) (user : Option User) (R : PromptRow)
    (hfind : db.prompts.find? (fun r => r.guid == guid) = some R)
    (hmm : R.author ≠ ownerName user) :
    delete_prompt db guid user = .error (.unauthorized, db) ∧
    service_delete_prompt db guid user = (db, some .unauthorized) := by
  have hchk : check_prompt_ownership db guid user = some .unauthorized := by
    rw [check_prompt_ownership, hfind]
    exact if_neg hmm
  constructor
  · rw [delete_prompt, hchk]
  · rw [service_delete_prompt, runWrite]
    simp only [delete_prompt, hchk]
    rfl

theorem delete_wrong_owner_witness :
    delete_prompt exDBBob "g" (some alice) = .error (.unauthorized, exDBBob) ∧
    service_delete_prompt exDBBob "g" (some alice) = (exDBBob, some .unauthorized) :=
  delete_wrong_owner_unauthorized_keeps_row exDBBob "g" (some alice)
    ⟨1, "g", "c", "old", some "bob", 0, 0⟩ rfl (by decide)

/-- C6: the spec says a successful delete removes the row and leaves no
link referencing the prompt. The code deletes the prompts row first and
only then runs remove_all_tags_from_prompt, whose DELETE joins prompt_tags
to the now-missing prompts row — so it deletes nothing and the link row
(prompt_id 1) is left orphaned; the tags vocabulary is untouched as
claimed. -/
theorem delete_leaves_orphan_tag_links :
    delete_prompt exDB "g" none = .ok exDBdel ∧
    exDBdel.prompts = [] ∧
    exDBdel.prompt_tags = [⟨1, 1⟩] ∧
    exDBdel.tags = exDB.tags :=
  ⟨rfl, rfl, rfl, rfl⟩

/-- C7: the spec says addTag is idempotent. The code's link insert is a
plain INSERT ... SELECT with no duplicate protection, and the link table
has a uniqueness constraint on the (prompt, tag) pair, so the second
identical call fails with a duplicate-key error that the facade wraps as
the unexpected kind — not a no-op. -/
theorem add_tag_twice_duplicate_key :
    add_tag_to_prompt exDB7 "g" "x" none = .ok exDB7a ∧
    (get_prompt exDB7a "g" none).map Prompt.tags = .ok ["x"] ∧
    add_tag_to_prompt exDB7a "g" "x" none = .error (.duplicateKey, exDB7a) ∧
    service_add_tag_to_prompt exDB7a "g" "x" none = (exDB7a, some .unexpected) :=
  ⟨rfl, rfl, rfl, rfl⟩

/-- C8: the spec says an empty tag filter raises ValidationError before
querying storage. In the code tags.split(",") never yields an empty list —
"" splits to [""] — so the DataValidationError branch is unreachable for
every input string, and the empty tags string instead queries storage with
the filter [""] and returns the rows tagged with the empty string. -/
theorem empty_tag_filter_validation_never_raised :
    (∀ (db : DB) (s : String) (user : Option User),
        service_list_prompts_by_tags db s user ≠ .error .validation) ∧
    pySplitComma "" = [""] ∧
    service_list_prompts_by_tags exDB7a "" none = .ok [] := by
  refine ⟨?_, rfl, rfl⟩
  intro db s user h
  rw [service_list_prompts_by_tags, if_neg (pySplitComma_ne_nil s)] at h
  rw [list_prompts_by_tags, if_neg (pySplitComma_ne_nil s)] at h
  simp at h

theorem empty_tag_filter_witness :
    service_list_prompts_by_tags exDB0 "x" none ≠ .error .validation :=
  empty_tag_filter_validation_never_raised.1 exDB0 "x" none

/-- C9 counterexample: create with the single tag "a,b" succeeds, but get
returns the tag set ["a", "b"] — GROUP_CONCAT joins with commas and
make_result_dict splits on commas, so the stored tag "a,b" is not among
the retrieved tags and the round trip fails as a set comparison. -/
theorem create_get_comma_tag_not_round_trip :
    create_prompt exDB0 "g1" pComma none = .ok (exDB0c, "g1") ∧
    (get_prompt exDB0c "g1" none).map Prompt.tags = .ok ["a", "b"] ∧
    pComma.tags = some ["a,b"] ∧
    (["a", "b"] : List String).count "a,b" = 0 :=
  ⟨rfl, rfl, rfl, by decide⟩

/-- C10: for a guid with no matching row, delete and tag-replacing update
raise neither RecordNotFoundError nor UnauthorizedError: the ownership
check subscripts the author of a missing fetchone result (a Python
TypeError), and the facade surfaces the failure as the generic unexpected
kind with the transaction rolled back (the returned store is the pre-call
store). -/
theorem missing_row_delete_update_wrapped_unexpected
    (db : DB) (guid : String) (user : Option User) (p : PromptUpdate)
    (ts : List String)
    (habsent : ∀ r ∈ db.prompts, r.guid ≠ guid)
    (hts : p.tags = some ts) :
    service_delete_prompt db guid user = (db, some .unexpected) ∧
    service_update_prompt db guid p user = (db, some .unexpected) := by
  have hfind : db.prompts.find? (fun r => r.guid == guid) = none := by
    rw [List.find?_eq_none]
    intro r hr
    simpa using habsent r hr
  have hchk : check_prompt_ownership db guid user = some .pyTypeError := by
    rw [check_prompt_ownership, hfind]
  have hg1 : ∀ r ∈ (applyScalarUpdate db guid p).prompts, r.guid ≠ guid := by
    intro r hr
    rw [applyScalarUpdate] at hr
    split at hr
    · exact habsent r hr
    · simp only [List.mem_map] at hr
      obtain ⟨r0, hr0, heq⟩ := hr
      have hne := habsent r0 hr0
      rw [if_neg hne] at heq
      exact heq ▸ hne
  have hfind1 : (applyScalarUpdate db guid p).prompts.find?
      (fun r => r.guid == guid) = none := by
    rw [List.find?_eq_none]
    intro r hr
    simpa using hg1 r hr
  have hchk1 : check_prompt_ownership (applyScalarUpdate db guid p) guid user =
      some .pyTypeError := by
    rw [check_prompt_ownership, hfind1]
  constructor
  · rw [service_delete_prompt, runWrite]
    simp only [delete_prompt, hchk, toServiceError]
  · have hcond : ¬(scalarAssignments p = [] ∧ (some ts : Option (List String)) = none) :=
      fun h => Option.noConfusion h.2
    rw [service_update_prompt, runWrite]
    simp only [update_prompt, hts, if_neg hcond, update_tags, hchk1, toServiceError]

theorem missing_row_witness :
    service_delete_prompt exDB0 "zz" none = (exDB0, some .unexpected) ∧
    service_update_prompt exDB0 "zz" { content := some "z", tags := some ["a"] } none =
      (exDB0, some .unexpected) :=
  missing_row_delete_update_wrapped_unexpected exDB0 "zz" none
    { content := some "z", tags := some ["a"] } ["a"] (by simp [exDB0]) rfl

/-- C3 (amended): the column-update statement's WHERE clause matches guid
only, and the explicit ownership check — UnauthorizedError exactly when the
row's stored author differs from the caller's token, absent owner matching
only a NULL author — runs exactly when the tags field is not None, after
the scalar column update but before any tag-link mutation. When tags is
None no ownership check runs at all: the result does not depend on the
caller, and the only possible error is the no-fields DataValidationError
with the store untouched. The claim's "exactly when tags is supplied" does
not match the code: the tags field defaults to [] when unsupplied, so an
update that merely omits tags also performs the check; only tags
explicitly None skips it. -/
theorem update_ownership_check_iff_tags_not_none
    (db : DB) (guid : String) (p : PromptUpdate) (user : Option User) :
    (p.tags = none → ∀ user2 : Option User,
        update_prompt db guid p user = update_prompt db guid p user2) ∧
    (p.tags = none → ∀ (e : RepoError) (db2 : DB),
        update_prompt db guid p user = .error (e, db2) →
        e = .dataValidation ∧ db2 = db) ∧
    ((applyScalarUpdate db guid p).prompt_tags = db.prompt_tags) ∧
    (∀ ts : List String, p.tags = some ts → ∀ R : PromptRow,
        (applyScalarUpdate db guid p).prompts.find? (fun r => r.guid == guid) = some R →
        R.author ≠ ownerName user →
        update_prompt db guid p user =
          .error (.unauthorized, applyScalarUpdate db guid p)) ∧
    (∀ ts : List String, p.tags = some ts → ∀ R : PromptRow,
        (applyScalarUpdate db guid p).prompts.find? (fun r => r.guid == guid) = some R →
        R.author = ownerName user →
        ∀ db2 : DB, update_prompt db guid p user ≠ .error (.unauthorized, db2)) := by
  refine ⟨?_, ?_, ?_, ?_, ?_⟩
  · intro h user2
    simp only [update_prompt, h]
  · intro h e db2 herr
    simp only [update_prompt, h] at herr
    split at herr
    · obtain he := (Except.error.injEq _ _).mp herr
      exact ⟨(Prod.mk.injEq .. ▸ he).1.symm, (Prod.mk.injEq .. ▸ he).2.symm⟩
    · exact absurd herr (by simp)
  · rw [applyScalarUpdate]
    split
    · rfl
    · rfl
  · intro ts hts R hfind hmm
    have hcond : ¬(scalarAssignments p = [] ∧ (some ts : Option (List String)) = none) :=
      fun h => Option.noConfusion h.2
    have hchk : check_prompt_ownership (applyScalarUpdate db guid p) guid user =
        some .unauthorized := by
      rw [check_prompt_ownership, hfind]
      exact if_neg hmm
    simp only [update_prompt, hts, if_neg hcond, update_tags, hchk]
  · intro ts hts R hfind hmatch db2 herr
    have hcond : ¬(scalarAssignments p = [] ∧ (some ts : Option (List String)) = none) :=
      fun h => Option.noConfusion h.2
    have hchk : check_prompt_ownership (applyScalarUpdate db guid p) guid user = none := by
      rw [check_prompt_ownership, hfind]
      exact if_pos hmatch
    simp only [update_prompt, hts, if_neg hcond, update_tags, hchk] at herr
    simpa using addTagsSeq_error guid user ts _ .unauthorized db2 herr

theorem update_ownership_check_witness :
    update_prompt exDBBob "g" { display_name := some "new" } (some alice) =
      .error (.unauthorized,
        applyScalarUpdate exDBBob "g" { display_name := some "new" }) :=
  (update_ownership_check_iff_tags_not_none exDBBob "g"
      { display_name := some "new" } (some alice)).2.2.2.1 [] rfl
    ⟨1, "g", "c", "new", some "bob", 0, 0⟩ rfl (by decide)

/-- C4: every read path is scoped by exactly one ownership predicate —
author equal to the caller's username when an identity is given, author
NULL when none is given, never a union: every returned prompt carries that
author; get and getByName raise RecordNotFoundError precisely when no row
matches both the key and the predicate (so another owner's guid behaves as
a nonexistent one), and list / listByTags return a prompt for every row in
scope (with a matching tag for listByTags). -/
theorem read_operations_ownership_scope (db : DB) (user : Option User) :
    (∀ guid : String,
      (get_prompt db guid user = .error .recordNotFound ↔
        ∀ r ∈ db.prompts, ¬(r.guid = guid ∧ r.author = ownerName user)) ∧
      (∀ out : Prompt, get_prompt db guid user = .ok out →
        out.guid = guid ∧ out.author = ownerName user)) ∧
    (∀ name : String,
      (get_prompt_by_name db name user = .error .recordNotFound ↔
        ∀ r ∈ db.prompts, ¬(r.display_name = name ∧ r.author = ownerName user)) ∧
      (∀ out : Prompt, get_prompt_by_name db name user = .ok out →
        out.display_name = name ∧ out.author = ownerName user)) ∧
    (∀ out ∈ list_prompts db user, out.author = ownerName user) ∧
    (∀ r ∈ db.prompts, r.author = ownerName user →
      ∃ out ∈ list_prompts db user, out.guid = r.guid) ∧
    (∀ (ts : List String) (res : List Prompt),
      list_prompts_by_tags db ts user = .ok res →
      (∀ out ∈ res, out.author = ownerName user) ∧
      (∀ r ∈ db.prompts, r.author = ownerName user →
        matchingTagStrings db r ts ≠ [] → ∃ out ∈ res, out.guid = r.guid)) := by
  refine ⟨?_, ?_, ?_, ?_, ?_⟩
  · intro guid
    rcases hf : db.prompts.find? (fun r => r.guid == guid && r.author == ownerName user)
      with _ | R
    · refine ⟨⟨fun _ r hr hP => ?_, fun _ => by simp [get_prompt, hf]⟩,
              fun out hout => ?_⟩
      · have hnone := List.find?_eq_none.mp hf r hr
        simp [hP.1, hP.2] at hnone
      · simp only [get_prompt, hf] at hout
        exact Except.noConfusion hout
    · have hpred := List.find?_some hf
      have hmem := List.mem_of_find?_eq_some hf
      simp only [Bool.and_eq_true, beq_iff_eq] at hpred
      refine ⟨⟨fun herr => ?_, fun hall => absurd ⟨hpred.1, hpred.2⟩ (hall R hmem)⟩,
              fun out hout => ?_⟩
      · simp only [get_prompt, hf] at herr
        exact Except.noConfusion herr
      · simp only [get_prompt, hf, Except.ok.injEq] at hout
        rw [← hout]
        exact ⟨hpred.1, hpred.2⟩
  · intro name
    rcases hf : db.prompts.find?
        (fun r => r.display_name == name && r.author == ownerName user) with _ | R
    · refine ⟨⟨fun _ r hr hP => ?_, fun _ => by simp [get_prompt_by_name, hf]⟩,
              fun out hout => ?_⟩
      · have hnone := List.find?_eq_none.mp hf r hr
        simp [hP.1, hP.2] at hnone
      · simp only [get_prompt_by_name, hf] at hout
        exact Except.noConfusion hout
    · have hpred := List.find?_some hf
      have hmem := List.mem_of_find?_eq_some hf
      simp only [Bool.and_eq_true, beq_iff_eq] at hpred
      refine ⟨⟨fun herr => ?_, fun hall => absurd ⟨hpred.1, hpred.2⟩ (hall R hmem)⟩,
              fun out hout => ?_⟩
      · simp only [get_prompt_by_name, hf] at herr
        exact Except.noConfusion herr
      · simp only [get_prompt_by_name, hf, Except.ok.injEq] at hout
        rw [← hout]
        exact ⟨hpred.1, hpred.2⟩
  · intro out hout
    rw [list_prompts] at hout
    simp only [List.mem_map, List.mem_filter] at hout
    obtain ⟨r, ⟨hr, hscope⟩, rfl⟩ := hout
    simpa [make_result_dict] using hscope
  · intro r hr hscope
    refine ⟨make_result_dict r (groupConcatTags db r), ?_, rfl⟩
    rw [list_prompts]
    exact List.mem_map_of_mem _ (List.mem_filter.mpr ⟨hr, by simp [hscope]⟩)
  · intro ts res hres
    rw [list_prompts_by_tags] at hres
    split at hres
    · exact absurd hres (by simp)
    · obtain rfl : _ = res := (Except.ok.injEq _ _).mp hres
      constructor
      · intro out hout
        simp only [List.mem_filterMap, List.mem_filter] at hout
        obtain ⟨r, ⟨hr, hscope⟩, hmatch⟩ := hout
        rcases hms : matchingTagStrings db r ts with _ | ⟨m, ms⟩
        · rw [hms] at hmatch
          exact absurd hmatch (by simp)
        · rw [hms] at hmatch
          have hout' : make_result_dict r (some (joinComma (m :: ms))) = out := by
            simpa using hmatch
          rw [← hout']
          simpa [make_result_dict] using hscope
      · intro r hr hscope hne
        rcases hms : matchingTagStrings db r ts with _ | ⟨m, ms⟩
        · exact absurd hms hne
        · refine ⟨make_result_dict r (some (joinComma (m :: ms))), ?_, rfl⟩
          simp only [List.mem_filterMap, List.mem_filter]
          exact ⟨r, ⟨hr, by simp [hscope]⟩, by rw [hms]⟩

theorem read_ops_scope_witness :
    get_prompt exDB "zzz" none = .error .recordNotFound :=
  ((read_operations_ownership_scope exDB none).1 "zzz").1.mpr (by decide)

theorem tags_find_by_id (ts : List TagRow) (hnd : (ts.map TagRow.id).Nodup)
    (tr : TagRow) (htr : tr ∈ ts) :
    ts.find? (fun u => u.id == tr.id) = some tr := by
  induction ts with
  | nil => cases htr
  | cons t0 rest ih =>
    rw [List.map_cons, List.nodup_cons] at hnd
    rcases List.mem_cons.mp htr with rfl | hmem
    · exact List.find?_cons_of_pos _ (by simp)
    · have hne : t0.id ≠ tr.id := fun h =>
        hnd.1 (h ▸ List.mem_map_of_mem TagRow.id hmem)
      rw [List.find?_cons_of_neg _ (by simp [hne])]
      exact ih hnd.2 hmem

theorem filter_by_tag_unique (ts : List TagRow) (hnd : (ts.map TagRow.tag).Nodup)
    (tr : TagRow) (htr : tr ∈ ts) :
    ts.filter (fun u => u.tag == tr.tag) = [tr] := by
  induction ts with
  | nil => cases htr
  | cons t0 rest ih =>
    rw [List.map_cons, List.nodup_cons] at hnd
    rcases List.mem_cons.mp htr with rfl | hmem
    · have hrest : rest.filter (fun u => u.tag == tr.tag) = [] := by
        rw [List.filter_eq_nil_iff]
        intro u hu hbu
        exact hnd.1 (beq_iff_eq.mp hbu ▸ List.mem_map_of_mem TagRow.tag hu)
      rw [List.filter_cons_of_pos (by simp), hrest]
    · have hne : t0.tag ≠ tr.tag := fun h =>
        hnd.1 (h ▸ List.mem_map_of_mem TagRow.tag hmem)
      rw [List.filter_cons_of_neg (by simp [hne]), ih hnd.2 hmem]

theorem filter_by_tag_none (ts : List TagRow) (s : String)
    (hnot : s ∉ ts.map TagRow.tag) :
    ts.filter (fun u => u.tag == s) = [] := by
  rw [List.filter_eq_nil_iff]
  intro u hu hbu
  exact hnot (beq_iff_eq.mp hbu ▸ List.mem_map_of_mem TagRow.tag hu)

theorem add_tag_step (db : DB) (g t : String) (user : Option User) (R : PromptRow)
    (hfilter : db.prompts.filter
        (fun p => p.guid == g && p.author == ownerName user) = [R])
    (hid : (db.tags.map TagRow.id).Nodup)
    (hidlt : ∀ tr ∈ db.tags, tr.id < db.next_tag_id)
    (hstr : (db.tags.map TagRow.tag).Nodup)
    (hlinklt : ∀ l ∈ db.prompt_tags, l.tag_id < db.next_tag_id)
    (hnew : t ∉ tagStringsOf db R.id) :
    ∃ db2 : DB, add_tag_to_prompt db g t user = .ok db2 ∧
      db2.prompts = db.prompts ∧
      db2.next_prompt_id = db.next_prompt_id ∧
      db2.now = db.now ∧
      tagStringsOf db2 R.id = tagStringsOf db R.id ++ [t] ∧
      (db2.tags.map TagRow.id).Nodup ∧
      (∀ tr ∈ db2.tags, tr.id < db2.next_tag_id) ∧
      (db2.tags.map TagRow.tag).Nodup ∧
      (∀ l ∈ db2.prompt_tags, l.tag_id < db2.next_tag_id) := by
  by_cases hmem : t ∈ db.tags.map TagRow.tag
  · obtain ⟨tr, htr, htrt⟩ := List.mem_map.mp hmem
    have hany : db.tags.any (fun u => u.tag == t) = true :=
      List.any_eq_true.mpr ⟨tr, htr, by simp [htrt]⟩
    have hfiltags : db.tags.filter (fun u => u.tag == t) = [tr] := by
      rw [← htrt]
      exact filter_by_tag_unique db.tags hstr tr htr
    have hfind_tr : db.tags.find? (fun u => u.id == tr.id) = some tr :=
      tags_find_by_id db.tags hid tr htr
    have hnotmem : PromptTagRow.mk R.id tr.id ∉ db.prompt_tags := by
      intro hmeml
      apply hnew
      refine List.mem_filterMap.mpr
        ⟨⟨R.id, tr.id⟩, List.mem_filter.mpr ⟨hmeml, by simp⟩, ?_⟩
      simp [hfind_tr, htrt]
    refine ⟨{ db with prompt_tags := db.prompt_tags ++ [⟨R.id, tr.id⟩] },
        ?_, rfl, rfl, rfl, ?_, hid, hidlt, hstr, ?_⟩
    · rw [add_tag_to_prompt]
      simp only [if_pos hany, hfilter, hfiltags, List.flatMap_cons, List.map_cons,
        List.map_nil, List.flatMap_nil, List.append_nil, insertLinks,
        if_neg hnotmem]
    · simp only [tagStringsOf, List.filter_append, List.filterMap_append]
      congr 1
      simp [hfind_tr, htrt]
    · intro l hl
      rcases List.mem_append.mp hl with h | h
      · exact hlinklt l h
      · rw [List.mem_singleton] at h
        subst h
        exact hidlt tr htr
  · have hany : db.tags.any (fun u => u.tag == t) = false := by
      rw [List.any_eq_false]
      intro u hu hbu
      exact hmem (beq_iff_eq.mp hbu ▸ List.mem_map_of_mem TagRow.tag hu)
    have hfiltags : (db.tags ++ [(⟨db.next_tag_id, t⟩ : TagRow)]).filter
        (fun u => u.tag == t) = [(⟨db.next_tag_id, t⟩ : TagRow)] := by
      rw [List.filter_append, filter_by_tag_none db.tags t hmem,
        List.filter_cons_of_pos (by simp), List.filter_nil]
      rfl
    have hnotmem : PromptTagRow.mk R.id db.next_tag_id ∉ db.prompt_tags := by
      intro hmeml
      exact absurd (hlinklt _ hmeml) (lt_irrefl _)
    have hfindold : db.tags.find? (fun u => u.id == db.next_tag_id) = none := by
      rw [List.find?_eq_none]
      intro u hu
      simp only [beq_iff_eq]
      exact Nat.ne_of_lt (hidlt u hu)
    have hfindN : (db.tags ++ [(⟨db.next_tag_id, t⟩ : TagRow)]).find?
        (fun u => u.id == db.next_tag_id) = some (⟨db.next_tag_id, t⟩ : TagRow) := by
      rw [List.find?_append, hfindold, List.find?_cons_of_pos _ (by simp)]
      rfl
    have hext : ∀ l ∈ db.prompt_tags,
        (db.tags ++ [(⟨db.next_tag_id, t⟩ : TagRow)]).find?
            (fun u => u.id == l.tag_id)
          = db.tags.find? (fun u => u.id == l.tag_id) := by
      intro l hl
      have hnil : List.find? (fun u => u.id == l.tag_id)
          [(⟨db.next_tag_id, t⟩ : TagRow)] = none := by
        rw [List.find?_cons_of_neg _ (by simp [ne_of_gt (hlinklt l hl)]),
          List.find?_nil]
      rw [List.find?_append, hnil]
      cases hfo : db.tags.find? fun u => u.id == l.tag_id with
      | none => rfl
      | some v => rfl
    refine ⟨{ db with
              tags := db.tags ++ [(⟨db.next_tag_id, t⟩ : TagRow)],
              prompt_tags := db.prompt_tags ++ [(⟨R.id, db.next_tag_id⟩ : PromptTagRow)],
              next_tag_id := db.next_tag_id + 1 },
        ?_, rfl, rfl, rfl, ?_, ?_, ?_, ?_, ?_⟩
    · have hnottrue : ¬((db.tags.any fun u => u.tag == t) = true) := by
        simp [hany]
      rw [add_tag_to_prompt]
      simp only [if_neg hnottrue, hfilter, hfiltags,
        List.flatMap_cons, List.map_cons, List.map_nil, List.flatMap_nil,
        List.append_nil, insertLinks, if_neg hnotmem]
    · simp only [tagStringsOf, List.filter_append, List.filterMap_append]
      congr 1
      · exact List.filterMap_congr fun l hl => by
          rw [hext l (List.mem_filter.mp hl).1]
      · simp [hfindold]
    · rw [List.map_append]
      refine List.nodup_append.mpr ⟨hid, by simp, ?_⟩
      intro a ha hb
      simp only [List.map_cons, List.map_nil, List.mem_singleton] at hb
      obtain ⟨u, hu, hui⟩ := List.mem_map.mp ha
      subst hb
      exact absurd (hui ▸ hidlt u hu) (lt_irrefl _)
    · intro tr htr
      rcases List.mem_append.mp htr with h | h
      · exact Nat.lt_succ_of_lt (hidlt tr h)
      · rw [List.mem_singleton] at h
        subst h
        exact Nat.lt_succ_self _
    · rw [List.map_append]
      refine List.nodup_append.mpr ⟨hstr, by simp, ?_⟩
      intro a ha hb
      simp only [List.map_cons, List.map_nil, List.mem_singleton] at hb
      subst hb
      exact hmem ha
    · intro l hl
      rcases List.mem_append.mp hl with h | h
      · exact Nat.lt_succ_of_lt (hlinklt l h)
      · rw [List.mem_singleton] at h
        subst h
        exact Nat.lt_succ_self _

theorem addTagsSeq_spec (g : String) (user : Option User) (R : PromptRow) :
    ∀ (ts : List String) (db : DB),
    db.prompts.filter (fun q => q.guid == g && q.author == ownerName user) = [R] →
    (db.tags.map TagRow.id).Nodup →
    (∀ tr ∈ db.tags, tr.id < db.next_tag_id) →
    (db.tags.map TagRow.tag).Nodup →
    (∀ l ∈ db.prompt_tags, l.tag_id < db.next_tag_id) →
    ts.Nodup →
    (∀ t ∈ ts, t ∉ tagStringsOf db R.id) →
    ∃ db2 : DB, addTagsSeq g user db ts = .ok db2 ∧
      db2.prompts = db.prompts ∧
      db2.next_prompt_id = db.next_prompt_id ∧
      db2.now = db.now ∧
      tagStringsOf db2 R.id = tagStringsOf db R.id ++ ts
  | [], db, hfilter, hid, hidlt, hstr, hlinklt, hnodup, hfresh =>
    ⟨db, rfl, rfl, rfl, rfl, by simp⟩
  | t :: rest, db, hfilter, hid, hidlt, hstr, hlinklt, hnodup, hfresh => by
    obtain ⟨db1, hok, hpr, hnpi, hnow, hstrings, hid1, hidlt1, hstr1, hlinklt1⟩ :=
      add_tag_step db g t user R hfilter hid hidlt hstr hlinklt
        (hfresh t (List.mem_cons_self t rest))
    rw [List.nodup_cons] at hnodup
    have hrest_fresh : ∀ u ∈ rest, u ∉ tagStringsOf db1 R.id := by
      intro u hu hmemu
      rw [hstrings] at hmemu
      rcases List.mem_append.mp hmemu with h | h
      · exact hfresh u (List.mem_cons_of_mem t hu) h
      · rw [List.mem_singleton] at h
        exact hnodup.1 (h ▸ hu)
    obtain ⟨db2, hok2, hpr2, hnpi2, hnow2, hstrings2⟩ :=
      addTagsSeq_spec g user R rest db1 (hpr.symm ▸ hfilter) hid1 hidlt1 hstr1
        hlinklt1 hnodup.2 hrest_fresh
    refine ⟨db2, ?_, by rw [hpr2, hpr], by rw [hnpi2, hnpi], by rw [hnow2, hnow], ?_⟩
    · simp only [addTagsSeq, hok]
      exact hok2
    · rw [hstrings2, hstrings, List.append_assoc, List.singleton_append]

theorem splitCommaAux_no_comma (l : List Char) :
    ∀ acc : List Char, (',' : Char) ∉ l →
    splitCommaAux l acc = [String.mk (acc ++ l)] := by
  induction l with
  | nil => intro acc h; simp [splitCommaAux]
  | cons c rest ih =>
    intro acc h
    rw [List.mem_cons, not_or] at h
    have hc : ¬(c = ',') := fun hc => h.1 hc.symm
    rw [splitCommaAux, if_neg hc, ih (acc ++ [c]) h.2, List.append_assoc,
      List.singleton_append]

theorem splitCommaAux_split (l1 : List Char) :
    ∀ (l2 acc : List Char), (',' : Char) ∉ l1 →
    splitCommaAux (l1 ++ ',' :: l2) acc
      = String.mk (acc ++ l1) :: splitCommaAux l2 [] := by
  induction l1 with
  | nil => intro l2 acc h; simp [splitCommaAux]
  | cons c rest ih =>
    intro l2 acc h
    rw [List.mem_cons, not_or] at h
    have hc : ¬(c = ',') := fun hc => h.1 hc.symm
    rw [List.cons_append, splitCommaAux, if_neg hc, ih l2 (acc ++ [c]) h.2,
      List.append_assoc, List.singleton_append]

theorem pySplit_joinComma : ∀ ts : List String, ts ≠ [] →
    (∀ t ∈ ts, (',' : Char) ∉ t.data) →
    pySplitComma (joinComma ts) = ts
  | [], hne, _ => absurd rfl hne
  | [t], _, hc => by
    rw [show joinComma [t] = t from rfl, pySplitComma,
      splitCommaAux_no_comma t.data [] (hc t (by simp)), List.nil_append]
  | t :: t2 :: rest2, _, hc => by
    have hdata : (t ++ "," ++ joinComma (t2 :: rest2)).data
        = t.data ++ ',' :: (joinComma (t2 :: rest2)).data := by
      rw [String.data_append, String.data_append,
        show ("," : String).data = [','] from rfl, List.append_assoc,
        List.singleton_append]
    rw [show joinComma (t :: t2 :: rest2) = t ++ "," ++ joinComma (t2 :: rest2)
        from rfl,
      pySplitComma, hdata,
      splitCommaAux_split t.data (joinComma (t2 :: rest2)).data []
        (hc t (by simp)),
      List.nil_append]
    have htail := pySplit_joinComma (t2 :: rest2) (by simp)
      (fun u hu => hc u (List.mem_cons_of_mem t hu))
    rw [pySplitComma] at htail
    rw [htail]

theorem joinComma_ne_empty : ∀ ts : List String, ts ≠ [] → ts ≠ [""] →
    joinComma ts ≠ ""
  | [], hne, _ => absurd rfl hne
  | [t], _, hone => by
    rw [show joinComma [t] = t from rfl]
    intro h
    exact hone (by rw [h])
  | t :: t2 :: rest2, _, _ => by
    intro h
    have hd := congrArg String.data h
    rw [show joinComma (t :: t2 :: rest2) = t ++ "," ++ joinComma (t2 :: rest2)
        from rfl,
      String.data_append, String.data_append,
      show ("," : String).data = [','] from rfl,
      show ("" : String).data = [] from rfl] at hd
    simp at hd

/-- C9 (amended): for a well-formed store, a fresh guid and a create input
whose tags field is a duplicate-free list of comma-free tags that is not
the single empty string, create_prompt succeeds and get_prompt with the
same owner returns the created prompt with the input's content,
display_name and exactly the input's tag list. The claim's unconditional
form fails (comma counterexample above): tags are persisted faithfully but
retrieved through a comma join that splitting cannot invert for tags
containing commas, duplicate tags abort the create with a duplicate-key
error, and a lone empty-string tag reads back as no tags. -/
theorem create_get_round_trip (db : DB) (g : String) (p : PromptCreate)
    (author : Option User) (ts : List String)
    (hwf : DBWF db)
    (hts : p.tags = some ts)
    (hnodup : ts.Nodup)
    (hcomma : ∀ t ∈ ts, (',' : Char) ∉ t.data)
    (hsingle : ts ≠ [""])
    (hguid : ∀ r ∈ db.prompts, r.guid ≠ g) :
    ∃ (db2 : DB) (out : Prompt),
      create_prompt db g p author = .ok (db2, g) ∧
      get_prompt db2 g author = .ok out ∧
      out.content = p.content ∧
      out.display_name = p.display_name ∧
      out.tags = ts := by
  obtain ⟨hplt, hllt, hidlt, htaglt, hidnd, hstrnd⟩ := hwf
  have hfilnil : db.prompts.filter
      (fun q => q.guid == g && q.author == ownerName author) = [] := by
    rw [List.filter_eq_nil_iff]
    intro q hq hbq
    simp only [Bool.and_eq_true, beq_iff_eq] at hbq
    exact hguid q hq hbq.1
  have hfil : (db.prompts ++ [({ id := db.next_prompt_id, guid := g, content := p.content, display_name := p.display_name, author := ownerName author, created_at := db.now, updated_at := db.now } : PromptRow)]).filter (fun q => q.guid == g && q.author == ownerName author) = [({ id := db.next_prompt_id, guid := g, content := p.content, display_name := p.display_name, author := ownerName author, created_at := db.now, updated_at := db.now } : PromptRow)] := by
    rw [List.filter_append, hfilnil, List.nil_append,
      List.filter_cons_of_pos (by simp), List.filter_nil]
  have hfindnone : db.prompts.find? (fun r => r.guid == g) = none := by
    rw [List.find?_eq_none]
    intro r hr
    simp [hguid r hr]
  have hchk : check_prompt_ownership { db with prompts := db.prompts ++ [({ id := db.next_prompt_id, guid := g, content := p.content, display_name := p.display_name, author := ownerName author, created_at := db.now, updated_at := db.now } : PromptRow)], next_prompt_id := db.next_prompt_id + 1 } g author = none := by
    simp only [check_prompt_ownership]
    rw [List.find?_append, hfindnone, List.find?_cons_of_pos _ (by simp)]
    exact if_pos rfl
  have hkeep : db.prompt_tags.filter (fun l => !((db.prompts ++ [({ id := db.next_prompt_id, guid := g, content := p.content, display_name := p.display_name, author := ownerName author, created_at := db.now, updated_at := db.now } : PromptRow)]).any fun q => q.id == l.prompt_id && q.guid == g && q.author == ownerName author)) = db.prompt_tags := by
    rw [List.filter_eq_self]
    intro l hl
    have hX : ((db.prompts ++ [({ id := db.next_prompt_id, guid := g, content := p.content, display_name := p.display_name, author := ownerName author, created_at := db.now, updated_at := db.now } : PromptRow)]).any fun q => q.id == l.prompt_id && q.guid == g && q.author == ownerName author) = false := by
      rw [List.any_eq_false]
      intro q hq hbq
      simp only [Bool.and_eq_true, beq_iff_eq] at hbq
      rcases List.mem_append.mp hq with h | h
      · exact hguid q h hbq.1.2
      · rw [List.mem_singleton] at h
        subst h
        exact absurd hbq.1.1 (ne_of_gt (hllt l hl))
    rw [hX]
    rfl
  have hempty : tagStringsOf { db with prompts := db.prompts ++ [({ id := db.next_prompt_id, guid := g, content := p.content, display_name := p.display_name, author := ownerName author, created_at := db.now, updated_at := db.now } : PromptRow)], next_prompt_id := db.next_prompt_id + 1 } (({ id := db.next_prompt_id, guid := g, content := p.content, display_name := p.display_name, author := ownerName author, created_at := db.now, updated_at := db.now } : PromptRow)).id = [] := by
    simp only [tagStringsOf]
    have hfe : db.prompt_tags.filter (fun l => l.prompt_id == (({ id := db.next_prompt_id, guid := g, content := p.content, display_name := p.display_name, author := ownerName author, created_at := db.now, updated_at := db.now } : PromptRow)).id) = [] := by
      rw [List.filter_eq_nil_iff]
      intro l hl hb
      exact absurd (beq_iff_eq.mp hb) (Nat.ne_of_lt (hllt l hl))
    rw [hfe, List.filterMap_nil]
  have hfresh : ∀ t ∈ ts, t ∉ tagStringsOf { db with prompts := db.prompts ++ [({ id := db.next_prompt_id, guid := g, content := p.content, display_name := p.display_name, author := ownerName author, created_at := db.now, updated_at := db.now } : PromptRow)], next_prompt_id := db.next_prompt_id + 1 } (({ id := db.next_prompt_id, guid := g, content := p.content, display_name := p.display_name, author := ownerName author, created_at := db.now, updated_at := db.now } : PromptRow)).id := by
    intro t ht h
    rw [hempty] at h
    exact absurd h (List.not_mem_nil t)
  obtain ⟨db2, hok, hpr2, hnpi2, hnow2, hstrings2⟩ :=
    addTagsSeq_spec g author ({ id := db.next_prompt_id, guid := g, content := p.content, display_name := p.display_name, author := ownerName author, created_at := db.now, updated_at := db.now } : PromptRow) ts { db with prompts := db.prompts ++ [({ id := db.next_prompt_id, guid := g, content := p.content, display_name := p.display_name, author := ownerName author, created_at := db.now, updated_at := db.now } : PromptRow)], next_prompt_id := db.next_prompt_id + 1 } hfil hidnd hidlt hstrnd htaglt
      hnodup hfresh
  have hrem : remove_all_tags_from_prompt { db with prompts := db.prompts ++ [({ id := db.next_prompt_id, guid := g, content := p.content, display_name := p.display_name, author := ownerName author, created_at := db.now, updated_at := db.now } : PromptRow)], next_prompt_id := db.next_prompt_id + 1 } g author = { db with prompts := db.prompts ++ [({ id := db.next_prompt_id, guid := g, content := p.content, display_name := p.display_name, author := ownerName author, created_at := db.now, updated_at := db.now } : PromptRow)], next_prompt_id := db.next_prompt_id + 1 } := by
    simp only [remove_all_tags_from_prompt]
    rw [hkeep]
  have hcreate : create_prompt db g p author = .ok (db2, g) := by
    simp only [create_prompt, hts, update_tags, hchk, hrem, hok]
  have hpr2A : db2.prompts = db.prompts ++ [({ id := db.next_prompt_id, guid := g, content := p.content, display_name := p.display_name, author := ownerName author, created_at := db.now, updated_at := db.now } : PromptRow)] := hpr2
  have hfoC : db.prompts.find? (fun r => r.guid == g && r.author == ownerName author) = none := by
    rw [List.find?_eq_none]
    intro r hr
    simp [hguid r hr]
  have hfindC : db2.prompts.find? (fun r => r.guid == g && r.author == ownerName author) = some ({ id := db.next_prompt_id, guid := g, content := p.content, display_name := p.display_name, author := ownerName author, created_at := db.now, updated_at := db.now } : PromptRow) := by
    rw [hpr2A, List.find?_append, hfoC, List.find?_cons_of_pos _ (by simp)]
    rfl
  have hget : get_prompt db2 g author = .ok (make_result_dict ({ id := db.next_prompt_id, guid := g, content := p.content, display_name := p.display_name, author := ownerName author, created_at := db.now, updated_at := db.now } : PromptRow) (groupConcatTags db2 ({ id := db.next_prompt_id, guid := g, content := p.content, display_name := p.display_name, author := ownerName author, created_at := db.now, updated_at := db.now } : PromptRow))) := by
    simp only [get_prompt, hfindC]
  rw [hempty, List.nil_append] at hstrings2
  refine ⟨db2, make_result_dict ({ id := db.next_prompt_id, guid := g, content := p.content, display_name := p.display_name, author := ownerName author, created_at := db.now, updated_at := db.now } : PromptRow) (groupConcatTags db2 ({ id := db.next_prompt_id, guid := g, content := p.content, display_name := p.display_name, author := ownerName author, created_at := db.now, updated_at := db.now } : PromptRow)),
    hcreate, hget, rfl, rfl, ?_⟩
  cases ts with
  | nil =>
    have hgc : groupConcatTags db2 ({ id := db.next_prompt_id, guid := g, content := p.content, display_name := p.display_name, author := ownerName author, created_at := db.now, updated_at := db.now } : PromptRow) = none := by
      simp only [groupConcatTags]
      rw [hstrings2]
    simp only [make_result_dict, hgc]
  | cons t0 rest =>
    have hgc : groupConcatTags db2 ({ id := db.next_prompt_id, guid := g, content := p.content, display_name := p.display_name, author := ownerName author, created_at := db.now, updated_at := db.now } : PromptRow) = some (joinComma (t0 :: rest)) := by
      simp only [groupConcatTags]
      rw [hstrings2]
    have hnemp : joinComma (t0 :: rest) ≠ "" :=
      joinComma_ne_empty (t0 :: rest) (by simp) hsingle
    simp only [make_result_dict, hgc]
    rw [if_neg hnemp]
    exact pySplit_joinComma (t0 :: rest) (by simp) hcomma

theorem create_get_round_trip_witness :
    ∃ (db2 : DB) (out : Prompt),
      create_prompt exDB0 "gw"
          { content := "c", display_name := "d", tags := some ["a", "b"] }
          (some alice) = .ok (db2, "gw") ∧
      get_prompt db2 "gw" (some alice) = .ok out ∧
      out.content = "c" ∧
      out.display_name = "d" ∧
      out.tags = ["a", "b"] :=
  create_get_round_trip exDB0 "gw"
    { content := "c", display_name := "d", tags := some ["a", "b"] }
    (some alice) ["a", "b"]
    ⟨by simp [exDB0], by simp [exDB0], by simp [exDB0], by simp [exDB0],
      by simp [exDB0], by simp [exDB0]⟩
    rfl (by decide) (by decide) (by decide) (by simp [exDB0])

end PromptCore
